import Mathlib

/-!
Verification of the gem5 assignment-3 driver scripts: `assignment3.py`,
`run_experiments.py` and `classify_misses.py`.  The Python sources are
shallowly embedded below: strings are `List Char` or `String`, Python ints
are `Int`, values that may be absent are `Option`, and an operation that
raises an exception is modelled as returning `none`.
-/

/-- ASCII fragment of the character class matched by Python's regex token
for whitespace (space, tab, newline, carriage return, vertical tab, form
feed).  Non-ASCII whitespace, irrelevant for gem5 stats files, is not
modelled. -/
def pyIsSpace (c : Char) : Bool :=
  c == ' ' || c == '\t' || c == '\n' || c == '\r' || c == '\x0b' || c == '\x0c'

/-- Position `p` of `content` is a line start in the sense of the MULTILINE
anchor of Python regexes: the start of the string, or just after a newline. -/
def lineStartAt (content : List Char) (p : Nat) : Bool :=
  p == 0 || content.getD (p - 1) '\x00' == '\n'

/-- The literal characters of `name` occur in `content` starting at `p`
(the regex body is built with an escape of the stat name, hence literal). -/
def occursAt (content name : List Char) (p : Nat) : Bool :=
  name.isPrefixOf (content.drop p)

/-- The suffix of `content` after an occurrence of `name` at position `p`. -/
def restAfterName (content name : List Char) (p : Nat) : List Char :=
  content.drop (p + name.length)

/-- After the name there is at least one whitespace character and, after the
maximal whitespace run, at least one non-whitespace character: exactly when
the greedy tail of the pattern, one-or-more whitespace followed by a captured
one-or-more non-whitespace run, can match at `p`. -/
def wsThenTokenAt (content name : List Char) (p : Nat) : Bool :=
  !((restAfterName content name p).takeWhile pyIsSpace).isEmpty &&
    !((restAfterName content name p).dropWhile pyIsSpace).isEmpty

/-- The whole pattern of `parse_stat` (line anchor, literal name, whitespace,
captured token) matches at position `p`. -/
def matchesAt (content name : List Char) (p : Nat) : Bool :=
  lineStartAt content p && (occursAt content name p && wsThenTokenAt content name p)

/-- Left-to-right search for the first position satisfying `f`, starting at
`p` with `fuel` positions left to try. -/
def findFirstAux (f : Nat → Bool) : Nat → Nat → Option Nat
  | p, fuel + 1 => if f p then some p else findFirstAux f (p + 1) fuel
  | _, 0 => none

/-- Leftmost match position of the `parse_stat` pattern, as found by a
regex search over `content`: positions are tried in increasing order. -/
def reSearchPos (content name : List Char) : Option Nat :=
  findFirstAux (matchesAt content name) 0 (content.length + 1)

/-- The captured group of a match at `p`: the maximal non-whitespace run
after the maximal whitespace run following the name. -/
def rawTokenAt (content name : List Char) (p : Nat) : List Char :=
  ((restAfterName content name p).dropWhile pyIsSpace).takeWhile (fun c => !pyIsSpace c)

/-- Python `value.split('#')[0]`: the prefix of `value` before the first
hash character. -/
def splitHashHead (s : List Char) : List Char :=
  s.takeWhile (fun c => c != '#')

/-- Python `str.strip()`: remove leading and trailing whitespace. -/
def pyStrip (s : List Char) : List Char :=
  (((s.dropWhile pyIsSpace).reverse).dropWhile pyIsSpace).reverse

/-- The value `parse_stat` derives from a match at position `p`:
the captured token with any text from a hash onward removed, stripped. -/
def statValueAt (content name : List Char) (p : Nat) : List Char :=
  pyStrip (splitHashHead (rawTokenAt content name p))

/-- `parse_stat` of `classify_misses.py` (lines 75-84): search the content
for the line-anchored pattern; on a match return the cleaned first token,
otherwise return Python `None`, embedded as `none`. -/
def parse_stat_cm (content name : List Char) : Option (List Char) :=
  (reSearchPos content name).map (statValueAt content name)

/-- The no-match sentinel string of `parse_stat` in `run_experiments.py`. -/
def naChars : List Char := ('N' :: '/' :: 'A' :: [])

/-- A Python value that is either `None` or a string, the codomain shared by
the two `parse_stat` variants. -/
inductive PyStr where
  | pyNone : PyStr
  | pyStr : List Char → PyStr
deriving DecidableEq

/-- `parse_stat` of `run_experiments.py` (lines 79-88): same search, but the
no-match result is the string "N/A" rather than `None`. -/
def parse_stat_rx (content name : List Char) : PyStr :=
  match reSearchPos content name with
  | some p => PyStr.pyStr (statValueAt content name p)
  | none => PyStr.pyStr naChars

/-- Embed the optional result of `parse_stat_cm` into the common codomain of
Python values, for comparison with `parse_stat_rx`. -/
def optionToPyStr (o : Option (List Char)) : PyStr :=
  match o with
  | some s => PyStr.pyStr s
  | none => PyStr.pyNone

/-- `classify_misses.py` line 149: capacity misses are the no-conflict
counter minus the no-capacity counter. -/
def capacity_misses (cold_capacity cold : Int) : Int :=
  cold_capacity - cold

/-- `classify_misses.py` line 150: conflict misses are the baseline total
minus the no-conflict counter. -/
def conflict_misses (total cold_capacity : Int) : Int :=
  total - cold_capacity

/-- `classify_misses.py` line 162: the verification condition guarding the
"Sum doesn't match total" warning branch. -/
def sum_check (total cold_capacity cold : Int) : Bool :=
  (cold + capacity_misses cold_capacity cold + conflict_misses total cold_capacity) == total

/-- The derived miss breakdown of `classify_misses.py`: the three counters
and the three percentages of the baseline total (exact rationals; the script
only formats them to one decimal, which cannot raise). -/
structure MissBreakdown where
  cold : Int
  capacity : Int
  conflict : Int
  coldPct : ℚ
  capacityPct : ℚ
  conflictPct : ℚ

/-- The overflow threshold of CPython's true division of two ints: the
quotient is correctly rounded to binary64 with round half to even, so an
exact quotient whose magnitude reaches 2^1024 - 2^970 (the midpoint between
the largest finite double and 2^1024, a tie that rounds to the even 2^1024)
rounds to infinity, which CPython reports as OverflowError. -/
def floatOverflowThreshold : ℚ := ((2 ^ 1024 - 2 ^ 970 : ℕ) : ℚ)

/-- CPython true division `a / b` of two ints: ZeroDivisionError for a zero
divisor and OverflowError when the correctly rounded binary64 quotient
overflows, both modelled as `none`.  A finite result is kept as the exact
rational quotient: rounding a finite quotient to binary64 cannot raise, and
no claim here depends on the rounded digits. -/
def pyIntTrueDiv (a b : Int) : Option ℚ :=
  if b = 0 then none
  else if floatOverflowThreshold ≤ |(a : ℚ) / (b : ℚ)| then none
  else some ((a : ℚ) / (b : ℚ))

/-- The classification step of `classify_misses.py` (lines 145-204): derive
capacity and conflict misses and the three percentages.  Each percentage is
the true division `100*counter / total` of two Python ints, which raises
ZeroDivisionError on a zero baseline total and OverflowError when the
quotient overflows binary64; any raise aborts the step before the CSV is
written (`none`), otherwise the step completes with the breakdown. -/
def classify_step (total cold_capacity cold : Int) : Option MissBreakdown :=
  match pyIntTrueDiv (100 * cold) total,
      pyIntTrueDiv (100 * capacity_misses cold_capacity cold) total,
      pyIntTrueDiv (100 * conflict_misses total cold_capacity) total with
  | some q1, some q2, some q3 =>
      some
        { cold := cold
          capacity := capacity_misses cold_capacity cold
          conflict := conflict_misses total cold_capacity
          coldPct := q1
          capacityPct := q2
          conflictPct := q3 }
  | _, _, _ => none

/-- A configuration row of `run_experiments.py` CONFIGS (lines 15-25). -/
structure RxConfig where
  clock_freq : String
  l1d_assoc : Nat
  l1d_size : String
deriving DecidableEq

/-- The eight experiment configurations of `run_experiments.py`. -/
def RX_CONFIGS : List RxConfig :=
  [ ⟨"1GHz", 2, "1kB"⟩, ⟨"1GHz", 2, "2kB"⟩, ⟨"1GHz", 2, "4kB"⟩, ⟨"1GHz", 2, "8kB"⟩,
    ⟨"0.8GHz", 4, "1kB"⟩, ⟨"0.8GHz", 4, "2kB"⟩, ⟨"0.8GHz", 4, "4kB"⟩, ⟨"0.8GHz", 4, "8kB"⟩ ]

/-- The main loop of `run_experiments.py` (lines 150-176), with the external
world abstracted: `ro c` is whether the gem5 subprocess for configuration `c`
exits with status zero, and `ex c` is the metrics record extracted from its
stats file (`none` when extraction fails).  Returns the trace of simulator
invocations, in order, and the collected result rows, in order.  A failed run
is reported and skipped (`continue`); there is no retry, so every
configuration appears in the trace exactly once. -/
def rxMainLoop {M : Type} (ro : RxConfig → Bool) (ex : RxConfig → Option M) :
    List RxConfig → List RxConfig × List (RxConfig × M)
  | [] => ([], [])
  | c :: rest =>
    if ro c then
      match ex c with
      | some m => (c :: (rxMainLoop ro ex rest).1, (c, m) :: (rxMainLoop ro ex rest).2)
      | none => (c :: (rxMainLoop ro ex rest).1, (rxMainLoop ro ex rest).2)
    else (c :: (rxMainLoop ro ex rest).1, (rxMainLoop ro ex rest).2)

/-- A configuration row of `classify_misses.py` CONFIGS (lines 15-20). -/
structure CmConfig where
  name : String
  l1d_size : String
  l1d_assoc : Nat
  purpose : String
deriving DecidableEq

/-- The baseline configuration of `classify_misses.py` (1kB, 2-way). -/
def cmBaselineCfg : CmConfig :=
  { name := "baseline", l1d_size := "1kB", l1d_assoc := 2,
    purpose := "Total misses (cold + capacity + conflict)" }

/-- The no-conflict configuration of `classify_misses.py` (1kB, 8-way). -/
def cmNoConflictCfg : CmConfig :=
  { name := "no_conflict", l1d_size := "1kB", l1d_assoc := 8,
    purpose := "Cold + capacity misses (no conflict)" }

/-- The no-capacity configuration of `classify_misses.py` (8kB, 8-way). -/
def cmNoCapacityCfg : CmConfig :=
  { name := "no_capacity", l1d_size := "8kB", l1d_assoc := 8,
    purpose := "Cold misses only (no capacity, no conflict)" }

/-- The three miss-classification configurations, in the listed order. -/
def CM_CONFIGS : List CmConfig :=
  [cmBaselineCfg, cmNoConflictCfg, cmNoCapacityCfg]

/-- A value of the `results` dict of `classify_misses.py` (lines 129-134). -/
structure CmEntry where
  l1d_size : String
  l1d_assoc : Nat
  misses : Int
  purpose : String
deriving DecidableEq

/-- The dict entry recorded for configuration `c` with extracted counter `n`. -/
def cmEntryOf (c : CmConfig) (n : Int) : CmEntry :=
  { l1d_size := c.l1d_size, l1d_assoc := c.l1d_assoc, misses := n, purpose := c.purpose }

/-- The main loop of `classify_misses.py` (lines 113-137), with the external
world abstracted exactly as in `rxMainLoop`; `cex c` is the parsed L1D miss
counter of configuration `c`.  Returns the invocation trace and the `results`
dict as an insertion-ordered association list keyed by configuration name. -/
def cmMainLoop (cro : CmConfig → Bool) (cex : CmConfig → Option Int) :
    List CmConfig → List CmConfig × List (String × CmEntry)
  | [] => ([], [])
  | c :: rest =>
    if cro c then
      match cex c with
      | some n =>
          (c :: (cmMainLoop cro cex rest).1, (c.name, cmEntryOf c n) :: (cmMainLoop cro cex rest).2)
      | none => (c :: (cmMainLoop cro cex rest).1, (cmMainLoop cro cex rest).2)
    else (c :: (cmMainLoop cro cex rest).1, (cmMainLoop cro cex rest).2)

/-- Dict lookup `results[k]` on the association-list model. -/
def cmLookup (results : List (String × CmEntry)) (k : String) : Option CmEntry :=
  (results.find? (fun kv => kv.1 == k)).map (fun kv => kv.2)

/-- `classify_misses.py` line 140: the gate `len(results) == 3` deciding
whether the breakdown is computed and the CSV written. -/
def cmGate (cro : CmConfig → Bool) (cex : CmConfig → Option Int) : Bool :=
  (cmMainLoop cro cex CM_CONFIGS).2.length == 3

/-- The overall outcome of `classify_misses.py` main (lines 139-209): when
the gate passes, look the three counters up by name and run the
classification step; the CSV is written exactly when this returns a
breakdown (`some`).  When the gate fails, or the step raises, nothing is
written. -/
def cmMainOutcome (cro : CmConfig → Bool) (cex : CmConfig → Option Int) : Option MissBreakdown :=
  if cmGate cro cex then
    match cmLookup (cmMainLoop cro cex CM_CONFIGS).2 ("baseline"),
        cmLookup (cmMainLoop cro cex CM_CONFIGS).2 ("no_conflict"),
        cmLookup (cmMainLoop cro cex CM_CONFIGS).2 ("no_capacity") with
    | some tb, some tc, some tn => classify_step tb.misses tc.misses tn.misses
    | _, _, _ => none
  else none

/-- A Python value stored in an argparse namespace: a string, an int,
or `None`. -/
inductive PyV where
  | vStr : String → PyV
  | vInt : Int → PyV
  | vNone : PyV
deriving DecidableEq

/-- Modelled from the spec: the dest argparse derives for a long option
string (Python standard library behaviour the scripts rely on): strip the
leading dashes and replace the remaining dashes by underscores.  Dots are
preserved. -/
def optDest (opt : String) : String :=
  String.mk (((opt.toList).dropWhile (fun c => c == '-')).map
    (fun c => if c == '-' then '_' else c))

/-- The argparse namespace produced by `assignment3.py` (lines 25-36) for a
command line supplying `--prog` and `--clock.freq` and leaving every other
option at its declared default: one attribute per declared option, stored
under the derived dest. -/
def a3_namespace (progV clockV : String) : List (String × PyV) :=
  [ (optDest ("--prog"), PyV.vStr progV),
    (optDest ("--daxpy-N"), PyV.vInt 100),
    (optDest ("--queens-N"), PyV.vInt 10),
    (optDest ("--bp"), PyV.vNone),
    (optDest ("--bp_size"), PyV.vNone),
    (optDest ("--bp_bits"), PyV.vNone),
    (optDest ("--clock.freq"), PyV.vStr clockV),
    (optDest ("--l1d.assoc"), PyV.vInt 8),
    (optDest ("--l1d.size"), PyV.vStr ("64KiB")) ]

/-- Python `getattr(args, attr)`: `none` models an AttributeError. -/
def pyGetattr (ns : List (String × PyV)) (attr : String) : Option PyV :=
  (ns.find? (fun kv => kv.1 == attr)).map (fun kv => kv.2)

/-- The ISAs distinguished by `assignment3.py` line 76. -/
inductive Gem5ISA where
  | X86 : Gem5ISA
  | ARM : Gem5ISA
  | RISCV : Gem5ISA
deriving DecidableEq

/-- `assignment3.py` lines 75-77: the clock frequency actually used for the
board: a hardcoded "1GHz", changed to "1.2GHz" when the ISA is ARM or RISCV.
The parsed namespace is not consulted. -/
def a3_clk_freq (isa : Gem5ISA) : String :=
  match isa with
  | Gem5ISA.ARM => "1.2GHz"
  | Gem5ISA.RISCV => "1.2GHz"
  | Gem5ISA.X86 => "1GHz"

/-- `assignment3.py` lines 80-88: the cache hierarchy construction reads
`args.l1d_size` and `args.l1d_assoc` from the namespace; a failed attribute
read (AttributeError) aborts the script, modelled as `none`. -/
def a3_cache_hierarchy (ns : List (String × PyV)) : Option (PyV × PyV) :=
  match pyGetattr ns ("l1d_size"), pyGetattr ns ("l1d_assoc") with
  | some s, some a => some (s, a)
  | _, _ => none

/-- The arguments `assignment3.py` passes to the SimpleBoard constructor
(lines 94-99) that the claims are about. -/
structure BoardParams where
  clk_freq : String
  l1d : PyV × PyV
deriving DecidableEq

/-- `assignment3.py` lines 80-99: build the cache hierarchy, then the board
with the locally computed clock frequency.  `none` when the hierarchy
construction already failed. -/
def a3_board (ns : List (String × PyV)) (isa : Gem5ISA) : Option BoardParams :=
  (a3_cache_hierarchy ns).map (fun pr => { clk_freq := a3_clk_freq isa, l1d := pr })

/-- A stats content in which the stat name occurs only mid-line: "ax 1". -/
def c4Content : List Char := ('a' :: 'x' :: ' ' :: '1' :: [])

/-- The one-character stat name used in concrete parse examples. -/
def c4Name : List Char := ('x' :: [])

/-- An empty stats content, on which no stat name can match. -/
def c9Content : List Char := []

/-- A stats content with a line-anchored match for the name of `c4Name`. -/
def c9MContent : List Char := ('x' :: ' ' :: '1' :: [])

/-! Helper lemmas about the regex-search model. -/

theorem drop_eq_nil_of_ge (l : List Char) : ∀ k : Nat, l.length ≤ k → l.drop k = [] := by
  induction l with
  | nil => intro k _; cases k <;> rfl
  | cons a t ih =>
      intro k hk
      cases k with
      | zero => simp at hk
      | succ k' => simpa using ih k' (by simpa using hk)

theorem occursAt_ge_false (content name : List Char) (p : Nat)
    (hn : name ≠ []) (hp : content.length ≤ p) : occursAt content name p = false := by
  have hd : content.drop p = [] := drop_eq_nil_of_ge content p hp
  cases name with
  | nil => exact absurd rfl hn
  | cons a t => simp [occursAt, hd, List.isPrefixOf]

theorem findFirstAux_eq_some (f : Nat → Bool) :
    ∀ (fuel p q : Nat), findFirstAux f p fuel = some q →
      f q = true ∧ p ≤ q ∧ ∀ r, p ≤ r → r < q → f r = false := by
  intro fuel
  induction fuel with
  | zero => intro p q h; simp [findFirstAux] at h
  | succ n ih =>
      intro p q h
      cases hf : f p with
      | true =>
          simp [findFirstAux, hf] at h
          subst h
          exact ⟨hf, Nat.le_refl p, fun r h1 h2 => absurd (Nat.lt_of_le_of_lt h1 h2) (Nat.lt_irrefl p)⟩
      | false =>
          simp [findFirstAux, hf] at h
          obtain ⟨h1, h2, h3⟩ := ih (p + 1) q h
          refine ⟨h1, by omega, ?_⟩
          intro r hr1 hr2
          rcases Nat.eq_or_lt_of_le hr1 with heq | hlt
          · exact heq ▸ hf
          · exact h3 r hlt hr2

theorem findFirstAux_eq_none (f : Nat → Bool) :
    ∀ (fuel p : Nat), findFirstAux f p fuel = none →
      ∀ q, p ≤ q → q < p + fuel → f q = false := by
  intro fuel
  induction fuel with
  | zero => intro p _ q _ hq; omega
  | succ n ih =>
      intro p h q hq1 hq2
      cases hf : f p with
      | true => simp [findFirstAux, hf] at h
      | false =>
          simp [findFirstAux, hf] at h
          rcases Nat.eq_or_lt_of_le hq1 with heq | hlt
          · exact heq ▸ hf
          · exact ih (p + 1) h q hlt (by omega)

theorem matchesAt_lt_len (content name : List Char) (p : Nat)
    (h : matchesAt content name p = true) : p < content.length + 1 := by
  have hws : wsThenTokenAt content name p = true := by
    simp only [matchesAt, Bool.and_eq_true] at h
    exact h.2.2
  by_contra hlt
  have hd : restAfterName content name p = [] := by
    unfold restAfterName
    exact drop_eq_nil_of_ge content (p + name.length) (by omega)
  simp [wsThenTokenAt, hd] at hws

/-- C4: `parse_stat` extracts a statistic only by line-anchored matching.
For every stats-file content and stat name it returns a value exactly when
the stat name occurs at the start of some line followed by whitespace and a
non-whitespace token; the value is then the token of the leftmost such
occurrence with any text from a hash onward stripped, and when every
occurrence of the name is mid-line the result is the no-match result (also
the "N/A" sentinel of the `run_experiments.py` variant). -/
theorem parse_stat_line_anchored (content name : List Char) :
    ((parse_stat_cm content name).isSome = true ↔ ∃ p, matchesAt content name p = true)
  ∧ (∀ v, parse_stat_cm content name = some v →
      ∃ p, matchesAt content name p = true
        ∧ (∀ q, q < p → matchesAt content name q = false)
        ∧ v = statValueAt content name p)
  ∧ ((∀ p, occursAt content name p = true → lineStartAt content p = false) →
      parse_stat_cm content name = none ∧ parse_stat_rx content name = PyStr.pyStr naChars) := by
  refine ⟨⟨?_, ?_⟩, ?_, ?_⟩
  · intro h
    cases hs : reSearchPos content name with
    | none => simp [parse_stat_cm, hs] at h
    | some p =>
        simp only [reSearchPos] at hs
        exact ⟨p, (findFirstAux_eq_some _ _ _ _ hs).1⟩
  · rintro ⟨p, hp⟩
    cases hs : reSearchPos content name with
    | some q => simp [parse_stat_cm, hs]
    | none =>
        exfalso
        simp only [reSearchPos] at hs
        have hnone := findFirstAux_eq_none _ _ _ hs p (Nat.zero_le p)
          (by have := matchesAt_lt_len content name p hp; omega)
        rw [hp] at hnone
        exact Bool.true_eq_false.mp hnone
  · intro v hv
    cases hs : reSearchPos content name with
    | none => simp [parse_stat_cm, hs] at hv
    | some p =>
        have hs' := hs
        simp only [reSearchPos] at hs'
        have hmain := findFirstAux_eq_some (matchesAt content name) (content.length + 1) 0 p hs'
        refine ⟨p, hmain.1, ?_, ?_⟩
        · intro q hq
          exact hmain.2.2 q (Nat.zero_le q) hq
        · simp only [parse_stat_cm, hs, Option.map_some', Option.some.injEq] at hv
          exact hv.symm
  · intro hmid
    have hs : reSearchPos content name = none := by
      cases hs : reSearchPos content name with
      | none => rfl
      | some p =>
          exfalso
          simp only [reSearchPos] at hs
          have hm := (findFirstAux_eq_some (matchesAt content name) (content.length + 1) 0 p hs).1
          simp only [matchesAt, Bool.and_eq_true] at hm
          have := hmid p hm.2.1
          rw [hm.1] at this
          exact Bool.true_eq_false.mp this
    constructor
    · simp [parse_stat_cm, hs]
    · simp [parse_stat_rx, hs]

/-- Witness for C4 at a concrete input: in the content "ax 1" the name "x"
occurs only mid-line, and `parse_stat` indeed yields the no-match result. -/
theorem parse_stat_line_anchored_witness :
    parse_stat_cm c4Content c4Name = none := by
  apply ((parse_stat_line_anchored c4Content c4Name).2.2 ?_).1
  intro p hp
  rcases Nat.lt_or_ge p 4 with h4 | h4
  · interval_cases p <;> revert hp <;> decide
  · exfalso
    have hocc : occursAt c4Content c4Name p = false := by
      apply occursAt_ge_false c4Content c4Name p (by decide)
      have hl : c4Content.length = 4 := rfl
      omega
    rw [hp] at hocc
    exact Bool.true_eq_false.mp hocc

/-- C9 counterexample: the two `parse_stat` variants disagree on empty
content (no match): `run_experiments.py` returns the string "N/A" while
`classify_misses.py` returns `None`. -/
theorem parse_stat_variants_differ :
    optionToPyStr (parse_stat_cm c9Content c4Name) ≠ parse_stat_rx c9Content c4Name := by
  decide

/-- C9 amended: the two `parse_stat` variants return the same result
whenever the stat is found; they differ only in the no-match result. -/
theorem parse_stat_variants_agree_on_match (content name : List Char)
    (h : (parse_stat_cm content name).isSome = true) :
    optionToPyStr (parse_stat_cm content name) = parse_stat_rx content name := by
  cases hs : reSearchPos content name with
  | none => simp [parse_stat_cm, hs] at h
  | some p => simp [parse_stat_cm, parse_stat_rx, optionToPyStr, hs]

/-- Witness for the amended C9 at a concrete matching input. -/
theorem parse_stat_variants_agree_witness :
    optionToPyStr (parse_stat_cm c9MContent c4Name) = parse_stat_rx c9MContent c4Name :=
  parse_stat_variants_agree_on_match c9MContent c4Name (by decide)

/-- C1: for every triple of integer counters, the computed capacity and
conflict misses of `classify_misses.py` satisfy
cold + capacity + conflict = total, so the verification condition of line
162 holds and the "Sum doesn't match total" warning branch is never taken. -/
theorem miss_decomposition_sum (total cold_capacity cold : Int) :
    cold + capacity_misses cold_capacity cold + conflict_misses total cold_capacity = total
  ∧ sum_check total cold_capacity cold = true := by
  constructor
  · simp only [capacity_misses, conflict_misses]
    ring
  · simp only [sum_check, capacity_misses, conflict_misses, beq_iff_eq]
    ring

/-- C10 counterexample: with all three parsed counters equal to zero the
classification step raises ZeroDivisionError (the percentage prints divide
by the baseline total), so it does not complete. -/
theorem classify_step_zero_total_counterexample : classify_step 0 0 0 = none := rfl

theorem pyIntTrueDiv_isSome_iff (a b : Int) :
    (pyIntTrueDiv a b).isSome = true ↔
      (b ≠ 0 ∧ |(a : ℚ) / (b : ℚ)| < floatOverflowThreshold) := by
  unfold pyIntTrueDiv
  split_ifs with hb hov
  · simp [hb]
  · simp [hb, not_lt.mpr hov]
  · simp [hb, not_le.mp hov]

theorem classify_step_isSome_iff (total cold_capacity cold : Int) :
    (classify_step total cold_capacity cold).isSome = true ↔
      ((pyIntTrueDiv (100 * cold) total).isSome = true
       ∧ (pyIntTrueDiv (100 * capacity_misses cold_capacity cold) total).isSome = true
       ∧ (pyIntTrueDiv (100 * conflict_misses total cold_capacity) total).isSome = true) := by
  cases h1 : pyIntTrueDiv (100 * cold) total <;>
    cases h2 : pyIntTrueDiv (100 * capacity_misses cold_capacity cold) total <;>
      cases h3 : pyIntTrueDiv (100 * conflict_misses total cold_capacity) total <;>
        simp [classify_step, h1, h2, h3]

/-- C10 amended: the classification step of `classify_misses.py` completes
without raising exactly when the baseline total is nonzero and each of the
three percentage quotients 100*counter/total lies strictly below the
binary64 overflow threshold in magnitude; a zero total raises
ZeroDivisionError and an over-threshold quotient raises OverflowError. -/
theorem classify_step_no_raise_iff (total cold_capacity cold : Int) :
    (classify_step total cold_capacity cold).isSome = true ↔
      (total ≠ 0
       ∧ |((100 * cold : Int) : ℚ) / (total : ℚ)| < floatOverflowThreshold
       ∧ |((100 * capacity_misses cold_capacity cold : Int) : ℚ) / (total : ℚ)| <
           floatOverflowThreshold
       ∧ |((100 * conflict_misses total cold_capacity : Int) : ℚ) / (total : ℚ)| <
           floatOverflowThreshold) := by
  rw [classify_step_isSome_iff, pyIntTrueDiv_isSome_iff, pyIntTrueDiv_isSome_iff,
    pyIntTrueDiv_isSome_iff]
  constructor
  · rintro ⟨⟨h0, ha⟩, ⟨_, hb⟩, ⟨_, hc⟩⟩
    exact ⟨h0, ha, hb, hc⟩
  · rintro ⟨h0, ha, hb, hc⟩
    exact ⟨⟨h0, ha⟩, ⟨h0, hb⟩, ⟨h0, hc⟩⟩

/-! Helper lemmas about the driver loops. -/

theorem rxMainLoop_fst {M : Type} (ro : RxConfig → Bool) (ex : RxConfig → Option M) :
    ∀ l : List RxConfig, (rxMainLoop ro ex l).1 = l := by
  intro l
  induction l with
  | nil => rfl
  | cons c rest ih =>
      cases hro : ro c with
      | true => cases hex : ex c <;> simp [rxMainLoop, hro, hex, ih]
      | false => simp [rxMainLoop, hro, ih]

theorem rxMainLoop_snd {M : Type} (ro : RxConfig → Bool) (ex : RxConfig → Option M) :
    ∀ l : List RxConfig, (rxMainLoop ro ex l).2 =
      l.filterMap (fun c => if ro c then (ex c).map (fun m => (c, m)) else none) := by
  intro l
  induction l with
  | nil => rfl
  | cons c rest ih =>
      cases hro : ro c with
      | true => cases hex : ex c <;> simp [rxMainLoop, List.filterMap_cons, hro, hex, ih]
      | false => simp [rxMainLoop, List.filterMap_cons, hro, ih]

theorem rxMainLoop_rows_order {M : Type} (ro : RxConfig → Bool) (ex : RxConfig → Option M) :
    ∀ l : List RxConfig, ((rxMainLoop ro ex l).2).map Prod.fst =
      l.filter (fun c => ro c && (ex c).isSome) := by
  intro l
  induction l with
  | nil => rfl
  | cons c rest ih =>
      cases hro : ro c with
      | true => cases hex : ex c <;> simp [rxMainLoop, List.filter_cons, hro, hex, ih]
      | false => simp [rxMainLoop, List.filter_cons, hro, ih]

theorem cmMainLoop_fst (cro : CmConfig → Bool) (cex : CmConfig → Option Int) :
    ∀ l : List CmConfig, (cmMainLoop cro cex l).1 = l := by
  intro l
  induction l with
  | nil => rfl
  | cons c rest ih =>
      cases hro : cro c with
      | true => cases hex : cex c <;> simp [cmMainLoop, hro, hex, ih]
      | false => simp [cmMainLoop, hro, ih]

theorem cmMainLoop_snd (cro : CmConfig → Bool) (cex : CmConfig → Option Int) :
    ∀ l : List CmConfig, (cmMainLoop cro cex l).2 =
      l.filterMap (fun c => if cro c then (cex c).map (fun n => (c.name, cmEntryOf c n)) else none) := by
  intro l
  induction l with
  | nil => rfl
  | cons c rest ih =>
      cases hro : cro c with
      | true => cases hex : cex c <;> simp [cmMainLoop, List.filterMap_cons, hro, hex, ih]
      | false => simp [cmMainLoop, List.filterMap_cons, hro, ih]

theorem cm_names_inj :
    ∀ a, a ∈ CM_CONFIGS → ∀ b, b ∈ CM_CONFIGS → a.name = b.name → a = b := by
  decide

/-- C5: in both drivers the only failure handling is to skip the failed
configuration: every configuration is still invoked, exactly once and in
order (no retry), and a configuration whose run fails contributes no entry
to the collected results (keyed by row in `run_experiments.py` and by name
in `classify_misses.py`). -/
theorem drivers_failure_propagation {M : Type} (ro : RxConfig → Bool) (ex : RxConfig → Option M)
    (cro : CmConfig → Bool) (cex : CmConfig → Option Int) :
    (rxMainLoop ro ex RX_CONFIGS).1 = RX_CONFIGS
  ∧ (∀ c m, ro c = false → (c, m) ∉ (rxMainLoop ro ex RX_CONFIGS).2)
  ∧ (cmMainLoop cro cex CM_CONFIGS).1 = CM_CONFIGS
  ∧ (∀ c e, c ∈ CM_CONFIGS → cro c = false →
      (c.name, e) ∉ (cmMainLoop cro cex CM_CONFIGS).2) := by
  refine ⟨rxMainLoop_fst ro ex RX_CONFIGS, ?_, cmMainLoop_fst cro cex CM_CONFIGS, ?_⟩
  · intro c m hro hmem
    rw [rxMainLoop_snd ro ex RX_CONFIGS] at hmem
    obtain ⟨c', _, hf⟩ := List.mem_filterMap.mp hmem
    cases hro' : ro c' with
    | false => simp [hro'] at hf
    | true =>
        simp only [hro', if_true, Option.map_eq_some'] at hf
        obtain ⟨m', _, heq⟩ := hf
        have hc : c' = c := congrArg Prod.fst heq
        rw [hc, hro] at hro'
        exact Bool.false_ne_true hro'
  · intro c e hc hro hmem
    rw [cmMainLoop_snd cro cex CM_CONFIGS] at hmem
    obtain ⟨c', hc', hf⟩ := List.mem_filterMap.mp hmem
    cases hro' : cro c' with
    | false => simp [hro'] at hf
    | true =>
        simp only [hro', if_true, Option.map_eq_some'] at hf
        obtain ⟨n', _, heq⟩ := hf
        have hname : c'.name = c.name := congrArg Prod.fst heq
        have : c' = c := cm_names_inj c' hc' c hc hname
        rw [this, hro] at hro'
        exact Bool.false_ne_true hro'

/-- Witness for C5: with an environment in which every run fails, the first
configuration contributes no row to the results. -/
theorem drivers_failure_propagation_witness :
    ((⟨"1GHz", 2, "1kB"⟩ : RxConfig), (0 : Int)) ∉
      (rxMainLoop (fun _ => false) (fun _ => (none : Option Int)) RX_CONFIGS).2 :=
  (drivers_failure_propagation (fun _ => false) (fun _ => (none : Option Int))
    (fun _ => false) (fun _ => none)).2.1 ⟨"1GHz", 2, "1kB"⟩ 0 rfl

/-- C8: `run_experiments.py` invokes the simulator exactly once per
configuration of CONFIGS, sequentially in the listed order (the invocation
trace is CONFIGS itself), and the CSV rows are the successful configurations
in that same order. -/
theorem run_experiments_sequential_order {M : Type} (ro : RxConfig → Bool)
    (ex : RxConfig → Option M) :
    (rxMainLoop ro ex RX_CONFIGS).1 = RX_CONFIGS
  ∧ ((rxMainLoop ro ex RX_CONFIGS).2).map Prod.fst =
      RX_CONFIGS.filter (fun c => ro c && (ex c).isSome) :=
  ⟨rxMainLoop_fst ro ex RX_CONFIGS, rxMainLoop_rows_order ro ex RX_CONFIGS⟩

theorem length_filterMap_le {α β : Type} (f : α → Option β) :
    ∀ l : List α, (l.filterMap f).length ≤ l.length := by
  intro l
  induction l with
  | nil => simp
  | cons a t ih =>
      cases hf : f a with
      | none => simp [List.filterMap_cons, hf]; omega
      | some b => simp [List.filterMap_cons, hf]; omega

theorem length_filterMap_eq_iff {α β : Type} (f : α → Option β) :
    ∀ l : List α, ((l.filterMap f).length = l.length ↔ ∀ a, a ∈ l → (f a).isSome = true) := by
  intro l
  induction l with
  | nil => simp
  | cons a t ih =>
      cases hf : f a with
      | none =>
          simp only [List.filterMap_cons, hf, List.length_cons]
          constructor
          · intro h
            exfalso
            have := length_filterMap_le f t
            omega
          · intro h
            have := h a (by simp)
            rw [hf] at this
            simp at this
      | some b =>
          simp only [List.filterMap_cons, hf, List.length_cons, Nat.add_right_cancel_iff]
          rw [ih]
          constructor
          · intro h c hc
            rcases List.mem_cons.mp hc with rfl | hct
            · rw [hf]; rfl
            · exact h c hct
          · intro h c hc
            exact h c (List.mem_cons_of_mem a hc)

theorem cm_pass_iff (cro : CmConfig → Bool) (cex : CmConfig → Option Int) (c : CmConfig) :
    ((if cro c then (cex c).map (fun n => (c.name, cmEntryOf c n)) else none).isSome = true) ↔
      (cro c = true ∧ (cex c).isSome = true) := by
  cases hro : cro c with
  | false => simp
  | true => cases hex : cex c <;> simp [hex]

theorem cm_gate_iff (cro : CmConfig → Bool) (cex : CmConfig → Option Int) :
    cmGate cro cex = true ↔ ∀ c, c ∈ CM_CONFIGS → (cro c = true ∧ (cex c).isSome = true) := by
  have hlen : CM_CONFIGS.length = 3 := rfl
  rw [cmGate, cmMainLoop_snd, beq_iff_eq, ← hlen, length_filterMap_eq_iff]
  constructor
  · intro h c hc
    exact (cm_pass_iff cro cex c).mp (h c hc)
  · intro h c hc
    exact (cm_pass_iff cro cex c).mpr (h c hc)

theorem cm_results_of_all (cro : CmConfig → Bool) (cex : CmConfig → Option Int)
    (t1 t2 t3 : Int)
    (h1 : cro cmBaselineCfg = true) (h2 : cro cmNoConflictCfg = true)
    (h3 : cro cmNoCapacityCfg = true)
    (e1 : cex cmBaselineCfg = some t1) (e2 : cex cmNoConflictCfg = some t2)
    (e3 : cex cmNoCapacityCfg = some t3) :
    (cmMainLoop cro cex CM_CONFIGS).2 =
      [ (cmBaselineCfg.name, cmEntryOf cmBaselineCfg t1),
        (cmNoConflictCfg.name, cmEntryOf cmNoConflictCfg t2),
        (cmNoCapacityCfg.name, cmEntryOf cmNoCapacityCfg t3) ] := by
  simp [CM_CONFIGS, cmMainLoop, h1, h2, h3, e1, e2, e3]

theorem cm_outcome_eq (cro : CmConfig → Bool) (cex : CmConfig → Option Int)
    (t1 t2 t3 : Int)
    (h1 : cro cmBaselineCfg = true) (h2 : cro cmNoConflictCfg = true)
    (h3 : cro cmNoCapacityCfg = true)
    (e1 : cex cmBaselineCfg = some t1) (e2 : cex cmNoConflictCfg = some t2)
    (e3 : cex cmNoCapacityCfg = some t3) :
    cmMainOutcome cro cex = classify_step t1 t2 t3 := by
  have hg : cmGate cro cex = true := by
    rw [cm_gate_iff]
    intro c hc
    have hc' : c = cmBaselineCfg ∨ c = cmNoConflictCfg ∨ c = cmNoCapacityCfg := by
      simpa [CM_CONFIGS] using hc
    rcases hc' with rfl | rfl | rfl
    · exact ⟨h1, by rw [e1]; rfl⟩
    · exact ⟨h2, by rw [e2]; rfl⟩
    · exact ⟨h3, by rw [e3]; rfl⟩
  have hres := cm_results_of_all cro cex t1 t2 t3 h1 h2 h3 e1 e2 e3
  rw [cmMainOutcome, if_pos hg, hres]
  rfl

/-- C6 counterexample: with every run succeeding and every parsed counter
equal to zero, all three configurations complete successfully and yield a
counter, yet no breakdown or CSV is produced: the percentage computation
divides by the zero baseline total and raises before the CSV is written. -/
theorem classify_csv_gate_counterexample :
    (∀ c, c ∈ CM_CONFIGS →
        (fun _ : CmConfig => true) c = true ∧ ((fun _ : CmConfig => some (0 : Int)) c).isSome = true)
  ∧ (cmMainOutcome (fun _ => true) (fun _ => some (0 : Int))).isSome = false := by
  constructor
  · decide
  · rfl

/-- C6 amended: `classify_misses.py` passes its gate (len(results) == 3)
exactly when all three configurations complete successfully and yield a
parsed miss counter; the breakdown is then produced and the CSV written
exactly when, in addition, the percentage computation on the three extracted
counters completes without raising (a zero baseline total raises
ZeroDivisionError and an overflowing quotient raises OverflowError, and
either raise happens before the CSV is written). -/
theorem classify_csv_gate_and_write (cro : CmConfig → Bool) (cex : CmConfig → Option Int) :
    (cmGate cro cex = true ↔ ∀ c, c ∈ CM_CONFIGS → (cro c = true ∧ (cex c).isSome = true))
  ∧ ((cmMainOutcome cro cex).isSome = true ↔
      (cmGate cro cex = true
       ∧ ∀ t1 t2 t3 : Int, cex cmBaselineCfg = some t1 → cex cmNoConflictCfg = some t2 →
           cex cmNoCapacityCfg = some t3 → (classify_step t1 t2 t3).isSome = true)) := by
  refine ⟨cm_gate_iff cro cex, ?_, ?_⟩
  · intro hout
    have hg : cmGate cro cex = true := by
      cases hgv : cmGate cro cex with
      | true => rfl
      | false =>
          rw [cmMainOutcome, hgv] at hout
          simp at hout
    refine ⟨hg, ?_⟩
    have hall := (cm_gate_iff cro cex).mp hg
    obtain ⟨h1, he1⟩ := hall cmBaselineCfg (by simp [CM_CONFIGS])
    obtain ⟨h2, he2⟩ := hall cmNoConflictCfg (by simp [CM_CONFIGS])
    obtain ⟨h3, he3⟩ := hall cmNoCapacityCfg (by simp [CM_CONFIGS])
    obtain ⟨t1, e1⟩ := Option.isSome_iff_exists.mp he1
    obtain ⟨t2, e2⟩ := Option.isSome_iff_exists.mp he2
    obtain ⟨t3, e3⟩ := Option.isSome_iff_exists.mp he3
    rw [cm_outcome_eq cro cex t1 t2 t3 h1 h2 h3 e1 e2 e3] at hout
    intro t1' t2' t3' e1' e2' e3'
    rw [e1, Option.some.injEq] at e1'
    rw [e2, Option.some.injEq] at e2'
    rw [e3, Option.some.injEq] at e3'
    rw [← e1', ← e2', ← e3']
    exact hout
  · rintro ⟨hg, hstep⟩
    have hall := (cm_gate_iff cro cex).mp hg
    obtain ⟨h1, he1⟩ := hall cmBaselineCfg (by simp [CM_CONFIGS])
    obtain ⟨h2, he2⟩ := hall cmNoConflictCfg (by simp [CM_CONFIGS])
    obtain ⟨h3, he3⟩ := hall cmNoCapacityCfg (by simp [CM_CONFIGS])
    obtain ⟨t1, e1⟩ := Option.isSome_iff_exists.mp he1
    obtain ⟨t2, e2⟩ := Option.isSome_iff_exists.mp he2
    obtain ⟨t3, e3⟩ := Option.isSome_iff_exists.mp he3
    rw [cm_outcome_eq cro cex t1 t2 t3 h1 h2 h3 e1 e2 e3]
    exact hstep t1 t2 t3 e1 e2 e3

/-- Witness for the amended C6: with every run succeeding and every counter
equal to one, the breakdown is produced and the CSV written. -/
theorem classify_csv_gate_and_write_witness :
    (cmMainOutcome (fun _ => true) (fun _ => some (1 : Int))).isSome = true :=
  ((classify_csv_gate_and_write (fun _ => true) (fun _ => some (1 : Int))).2).mpr
    ⟨rfl, by
      intro t1 t2 t3 h1 h2 h3
      simp only [Option.some.injEq] at h1 h2 h3
      subst h1
      subst h2
      subst h3
      rw [classify_step_isSome_iff]
      refine ⟨?_, ?_, ?_⟩ <;>
        rw [pyIntTrueDiv_isSome_iff] <;>
          refine ⟨by norm_num, ?_⟩ <;>
            rw [abs_lt] <;>
              constructor <;>
                norm_num [floatOverflowThreshold, capacity_misses, conflict_misses]⟩

/-- C2: `assignment3.py` does not translate the clock-frequency option into
the board configuration.  At the accepted command line supplying
"--prog queens --clock.freq 0.8GHz" the parsed namespace holds "0.8GHz"
under the dest "clock.freq", yet the clock frequency the script computes for
the SimpleBoard on an X86 build is the hardcoded "1GHz", and for every ISA
it is one of the two hardcoded values, never the supplied one. -/
theorem assignment3_clock_option_ignored :
    pyGetattr (a3_namespace ("queens") ("0.8GHz")) ("clock.freq") = some (PyV.vStr ("0.8GHz"))
  ∧ a3_clk_freq Gem5ISA.X86 = "1GHz"
  ∧ ("1GHz" : String) ≠ "0.8GHz"
  ∧ (∀ isa : Gem5ISA, a3_clk_freq isa = "1GHz" ∨ a3_clk_freq isa = "1.2GHz") := by
  refine ⟨by decide, rfl, by decide, ?_⟩
  intro isa
  cases isa
  · exact Or.inl rfl
  · exact Or.inr rfl
  · exact Or.inr rfl

/-- C3: the cache-hierarchy construction of `assignment3.py` cannot succeed:
argparse stores the options declared as "--l1d.size" and "--l1d.assoc" under
the dests "l1d.size" and "l1d.assoc" (dots preserved), so the reads of
`args.l1d_size` and `args.l1d_assoc` fail (AttributeError) on every command
line the parser accepts, and neither the hierarchy nor the board is ever
constructed. -/
theorem assignment3_l1d_attribute_error :
    pyGetattr (a3_namespace ("queens") ("1GHz")) ("l1d_size") = none
  ∧ pyGetattr (a3_namespace ("queens") ("1GHz")) ("l1d_assoc") = none
  ∧ pyGetattr (a3_namespace ("queens") ("1GHz")) ("l1d.size") = some (PyV.vStr ("64KiB"))
  ∧ pyGetattr (a3_namespace ("queens") ("1GHz")) ("l1d.assoc") = some (PyV.vInt 8)
  ∧ a3_cache_hierarchy (a3_namespace ("queens") ("1GHz")) = none
  ∧ a3_board (a3_namespace ("queens") ("1GHz")) Gem5ISA.X86 = none := by
  refine ⟨?_, ?_, ?_, ?_, ?_, ?_⟩ <;> decide
